import Mathlib

/-!
Verification of the orchestration core of a YouTube downloader application
(`app.py`): URL validation, metadata caching, resolution derivation, download
option construction, progress reporting, output-file resolution, and the
temp-directory lifecycle of the download session.

The embedding below translates the relevant Python functions into Lean.
Python strings are modelled as Lean strings restricted to their ASCII
behaviour (the regex class backslash-w and the whitespace set of str.strip
are modelled over ASCII characters); Python dictionaries with optional keys
become structures with Option fields, and Python truthiness checks on those
fields are made explicit (None and 0 and the empty string are falsy).
-/

namespace App

/-! ### Python decimal rendering of a natural number

Models the f-string conversion of a non-negative Python int to its decimal
digit string (as in the f-string producing a label from a height).  The fuel
argument makes the recursion structural; fuel n + 1 always suffices. -/

def pyDigitChar (d : Nat) : Char := Char.ofNat (48 + d)

def pyDecChars : Nat → Nat → List Char
  | 0, _ => []
  | f + 1, n => if n < 10 then [pyDigitChar n] else pyDecChars f (n / 10) ++ [pyDigitChar (n % 10)]

def pyNatStr (n : Nat) : String := String.mk (pyDecChars (n + 1) n)

/-- Value of a digit string, used to invert pyDecChars. -/
def pyDecVal (l : List Char) : Nat := l.foldl (fun a c => 10 * a + (c.toNat - 48)) 0

/-! ### Stream descriptors and the resolution resolver (get_available_resolutions) -/

/-- A stream descriptor as consumed by get_available_resolutions: the two
dictionary keys the function reads.  A missing vcodec key is modelled as
none (the source reads it with default "none"); a missing height key is
modelled as none. -/
structure StreamFmt where
  vcodec : Option String
  height : Option Nat
deriving DecidableEq

/-- The per-descriptor test of get_available_resolutions: the descriptor
contributes its height when fmt.get("vcodec", "none") is not equal to "none"
and fmt.get("height") is truthy (a height of 0 or a missing height is falsy). -/
def videoHeightOf (f : StreamFmt) : Option Nat :=
  if f.vcodec.getD "none" ≠ "none" then
    match f.height with
    | some h => if h ≠ 0 then some h else none
    | none => none
  else none

/-- The distinct qualifying heights, sorted in descending order
(sorted(heights, reverse=True) over the Python set). -/
def sortedHeights (formats : List StreamFmt) : List Nat :=
  ((formats.filterMap videoHeightOf).dedup).insertionSort (· ≥ ·)

/-- get_available_resolutions (app.py lines 218-230). -/
def get_available_resolutions (formats : List StreamFmt) : List String :=
  (sortedHeights formats).map (fun h => pyNatStr h ++ "p")

/-- The example list of the spec: video descriptors with heights
720, 480, 720, None, 360 plus one audio-only descriptor. -/
def exampleFormats : List StreamFmt :=
  [⟨some "avc1", some 720⟩, ⟨some "avc1", some 480⟩, ⟨some "vp9", some 720⟩,
   ⟨some "avc1", none⟩, ⟨some "avc1", some 360⟩, ⟨some "none", none⟩]

/-! ### URL validator (is_valid_youtube_url)

The source compiles the anchored pattern
  (https?://)? (www\.)? (youtube\.com/watch?v= or youtu\.be/ or youtube\.com/shorts/)
followed by eleven characters from the class of word characters and hyphen,
and tests it with search against the stripped input; since the pattern is
anchored at the start, this is a match at the front of the stripped string
with arbitrary trailing text.  Word characters and the whitespace set of
str.strip are modelled over ASCII. -/

/-- The ASCII whitespace characters removed by str.strip. -/
def isPySpace (c : Char) : Bool :=
  c == ' ' || c == '\t' || c == '\n' || c == '\x0d' || c == '\x0b' || c == '\x0c'

/-- str.strip: drop leading and trailing whitespace. -/
def stripChars (l : List Char) : List Char :=
  ((l.dropWhile isPySpace).reverse.dropWhile isPySpace).reverse

/-- A character of the regex class of word characters (ASCII fragment). -/
def isWordChar (c : Char) : Bool := c.isAlphanum || c == '_'

/-- A character of the bracketed class: word character or hyphen. -/
def isIdChar (c : Char) : Bool := isWordChar c || c == '-'

/-- Consume the literal token p from the front of l, returning the remainder. -/
def dropToken : List Char → List Char → Option (List Char)
  | [], l => some l
  | _ :: _, [] => none
  | p :: ps, c :: cs => if c = p then dropToken ps cs else none

/-- The optional scheme group: consume https:// or http:// when present. -/
def schemeRest (l : List Char) : List Char :=
  match dropToken "https://".data l with
  | some r => r
  | none =>
    match dropToken "http://".data l with
    | some r => r
    | none => l

/-- The optional www. group. -/
def wwwRest (l : List Char) : List Char :=
  match dropToken "www.".data l with
  | some r => r
  | none => l

/-- The host-and-path alternation of the pattern. -/
def hostRest (l : List Char) : Option (List Char) :=
  match dropToken "youtube.com/watch?v=".data l with
  | some r => some r
  | none =>
    match dropToken "youtu.be/".data l with
    | some r => some r
    | none => dropToken "youtube.com/shorts/".data l

/-- The whole anchored pattern: groups in order, then eleven identifier
characters, then anything. -/
def ytAccepts (l : List Char) : Bool :=
  match hostRest (wwwRest (schemeRest l)) with
  | some r => decide (11 ≤ r.length) && (r.take 11).all isIdChar
  | none => false

/-- is_valid_youtube_url (app.py lines 171-173). -/
def is_valid_youtube_url (url : String) : Bool := ytAccepts (stripChars url.data)

/-- The canonical video-link shape as the spec words it: optional scheme,
optional www., one of the three host and path alternatives, then an
eleven-character identifier of letters, digits, hyphen or underscore,
possibly followed by further text. -/
def CanonicalShape (l : List Char) : Prop :=
  ∃ scheme www hostPath idPart rest : List Char,
    (scheme = [] ∨ scheme = "http://".data ∨ scheme = "https://".data) ∧
    (www = [] ∨ www = "www.".data) ∧
    (hostPath = "youtube.com/watch?v=".data ∨ hostPath = "youtu.be/".data ∨
      hostPath = "youtube.com/shorts/".data) ∧
    idPart.length = 11 ∧ (∀ c ∈ idPart, isIdChar c) ∧
    l = scheme ++ www ++ hostPath ++ idPart ++ rest

/-! ### Download option construction (download_content, option part)

Models the construction of the engine options in download_content
(app.py lines 277-308): the format-selection expression, the merge
container, and the post-processor list.  Paths, quiet flags and the
progress-hook registration are not part of the claims about the options. -/

structure Postproc where
  key : String
  preferredcodec : String
  preferredquality : String
deriving DecidableEq

structure YdlOpts where
  format : String
  merge_output_format : Option String
  postprocessors : List Postproc
deriving DecidableEq

/-- str.replace applied to remove every occurrence of the letter p. -/
def removeAllP (s : String) : String := String.mk (s.data.filter (fun c => c != 'p'))

/-- The height string of the video branch:
resolution.replace("p", "") if resolution else "720"; the conditional is
Python truthiness, so a missing label and an empty label both give "720". -/
def pyHeightStr (resolution : Option String) : String :=
  match resolution with
  | some r => if r = "" then "720" else removeAllP r
  | none => "720"

/-- The options download_content builds: the audio branch when fmt is
"audio", otherwise the video branch. -/
def download_ydl_opts (fmt : String) (resolution : Option String) : YdlOpts :=
  if fmt = "audio" then
    { format := "bestaudio/best"
      merge_output_format := none
      postprocessors := [⟨"FFmpegExtractAudio", "mp3", "192"⟩] }
  else
    { format := "bestvideo[height<=" ++ pyHeightStr resolution ++
        "]+bestaudio/best[height<=" ++ pyHeightStr resolution ++ "]"
      merge_output_format := some "mp4"
      postprocessors := [] }

/-! ### Progress hook (_progress_hook, app.py lines 262-273) -/

/-- A progress event as read by the hook: the status tag and the three byte
counters, each possibly missing. -/
structure ProgressEvent where
  status : String
  total_bytes : Option Nat
  total_bytes_estimate : Option Nat
  downloaded_bytes : Option Nat
deriving DecidableEq

/-- total_bytes or total_bytes_estimate or 0: the Python or-chain on
truthiness, where a missing value and 0 are both falsy. -/
def eventTotal (d : ProgressEvent) : Nat :=
  match d.total_bytes with
  | some t => if t ≠ 0 then t else d.total_bytes_estimate.getD 0
  | none => d.total_bytes_estimate.getD 0

/-- downloaded_bytes with default 0. -/
def eventDownloaded (d : ProgressEvent) : Nat := d.downloaded_bytes.getD 0

/-- What one hook invocation reports: a progress-bar update carrying a
fraction and its caption, a status-text update, or nothing for an unknown
status tag.  The caption of the downloading bar update is modelled by its
constant text; the appended rounded-percent suffix of the caption is
abstracted away (the fraction itself is carried exactly). -/
inductive HookAction where
  | barUpdate (frac : ℚ) (text : String)
  | statusUpdate (text : String)
  | noAction
deriving DecidableEq

/-- The progress hook. -/
def progress_hook (d : ProgressEvent) : HookAction :=
  if d.status = "downloading" then
    if 0 < eventTotal d then
      .barUpdate (min ((eventDownloaded d : ℚ) / (eventTotal d : ℚ)) 1) "Downloading…"
    else
      .statusUpdate "Downloading… (size unknown)"
  else if d.status = "finished" then
    .barUpdate 1 "Download complete — processing…"
  else
    .noAction

/-! ### Output-file resolution (download_content, app.py lines 314-319) -/

/-- After the engine call returns without raising, download_content lists
the temp directory and returns the first entry, or reports an error and
returns no path when the directory is empty. -/
def resolve_output (files : List String) : Except String String :=
  match files with
  | [] => .error "❌ Download succeeded but no output file was found."
  | f :: _ => .ok f

/-! ### Session state machine and temp-directory lifecycle

Models the Streamlit session: the temp directories currently existing on
disk that the app created, the tmp_dir session field, and the download
status.  cleanup_temp (app.py lines 354-361) removes the recorded directory
from disk (the model takes the best-effort recursive deletion to succeed)
and clears the session fields; the download trigger (lines 455-460) first
runs cleanup_temp and then creates a fresh directory. -/

inductive DlStatus where
  | idle
  | downloading
  | ready
  | failed
deriving DecidableEq

structure SessionState where
  existingDirs : List Nat
  tmp_dir : Option Nat
  downloaded_file : Option Nat
  download_ready : Bool
  status : DlStatus
deriving DecidableEq

/-- _cleanup_temp: delete the recorded temp directory if it exists, then
clear tmp_dir, downloaded_file and download_ready. -/
def cleanup_temp (s : SessionState) : SessionState :=
  { s with
    existingDirs :=
      match s.tmp_dir with
      | some d => s.existingDirs.erase d
      | none => s.existingDirs
    tmp_dir := none
    downloaded_file := none
    download_ready := false }

/-- The directory list a session field accounts for. -/
def dirsOf : Option Nat → List Nat
  | some d => [d]
  | none => []

/-- The transitions of the session: a URL change (cleanup and reset), the
download trigger (cleanup, then a fresh temp directory, entering the
downloading state), and the two outcomes of the blocking download call. -/
inductive SessionStep : SessionState → SessionState → Prop
  | urlChange (s : SessionState) :
      SessionStep s { cleanup_temp s with status := .idle }
  | startDownload (s : SessionState) (d : Nat)
      (hfresh : d ∉ (cleanup_temp s).existingDirs) :
      SessionStep s
        { cleanup_temp s with
          existingDirs := d :: (cleanup_temp s).existingDirs
          tmp_dir := some d
          status := .downloading }
  | finishOk (s : SessionState) (f : Nat) (h : s.status = .downloading) :
      SessionStep s { s with downloaded_file := some f, download_ready := true, status := .ready }
  | finishFail (s : SessionState) (h : s.status = .downloading) :
      SessionStep s { s with status := .failed }

/-- The initial session: no temp directory on disk, empty fields. -/
def initSession : SessionState := ⟨[], none, none, false, .idle⟩

/-- States reachable from the initial session. -/
inductive SessionReachable : SessionState → Prop
  | init : SessionReachable initSession
  | step {s t : SessionState} :
      SessionReachable s → SessionStep s t → SessionReachable t

/-! ### Metadata fetch and its cache (get_video_info, app.py lines 179-212)

get_video_info is wrapped by the caching decorator with a time-to-live of
600 seconds.  The decorator stores the function's return value — it does
not distinguish a success dictionary from the None returned on a caught
engine error — keyed by the argument, and reuses an entry whose age is at
most the time-to-live. -/

/-- The engine metadata fields the function reads, each possibly absent. -/
structure RawInfo where
  title : Option String
  thumbnail : Option String
  formats : Option (List StreamFmt)
  duration : Option Nat
  uploader : Option String
  view_count : Option Nat
deriving DecidableEq

/-- The normalized metadata dictionary get_video_info returns on success. -/
structure VideoInfo where
  title : String
  thumbnail : String
  formats : List StreamFmt
  duration : Nat
  uploader : String
  view_count : Nat
deriving DecidableEq

/-- The external engine either yields metadata or raises with a message. -/
inductive EngineOutcome where
  | ok (info : RawInfo)
  | err (msg : String)

/-- The outcome of get_video_info: the metadata dictionary, or None paired
with the displayed error message. -/
inductive FetchResult where
  | success (v : VideoInfo)
  | failure (msg : String)
deriving DecidableEq

/-- The body of get_video_info: extract, normalize with defaults, catch the
engine error into a displayed message and a None result. -/
def get_video_info (engine : String → EngineOutcome) (url : String) : FetchResult :=
  match engine url with
  | .ok info =>
      .success
        { title := info.title.getD "Unknown Title"
          thumbnail := info.thumbnail.getD ""
          formats := info.formats.getD []
          duration := info.duration.getD 0
          uploader := info.uploader.getD "Unknown"
          view_count := info.view_count.getD 0 }
  | .err msg => .failure ("❌ Could not fetch video info: " ++ msg)

/-- Cache entries: argument, storage time, stored return value. -/
def CacheEntries : Type := List (String × Nat × FetchResult)

/-- Look up a live cache entry for the url at the current time. -/
def cacheLookup (entries : CacheEntries) (url : String) (now : Nat) : Option FetchResult :=
  match List.find? (fun e => e.1 == url && decide (now - e.2.1 ≤ 600)) entries with
  | some e => some e.2.2
  | none => none

/-- One call through the caching decorator: on a live entry, return it
without touching the engine; otherwise run get_video_info and store its
return value — success or failure alike.  The final component counts the
engine invocations of this call. -/
def cached_get_video_info (engine : String → EngineOutcome) (entries : CacheEntries)
    (url : String) (now : Nat) : FetchResult × CacheEntries × Nat :=
  match cacheLookup entries url now with
  | some r => (r, entries, 0)
  | none =>
      let r := get_video_info engine url
      (r, ((url, now, r) :: entries : List (String × Nat × FetchResult)), 1)

/-- An engine that always fails, for the concrete cache executions. -/
def failEngine : String → EngineOutcome := fun _ => .err "Video unavailable"

end App
namespace App

theorem pyDigitChar_toNat {d : Nat} (h : d < 10) : (pyDigitChar d).toNat = 48 + d := by
  interval_cases d <;> rfl

theorem pyDecVal_append_digit (l : List Char) (c : Char) :
    pyDecVal (l ++ [c]) = 10 * pyDecVal l + (c.toNat - 48) := by
  simp [pyDecVal, List.foldl_append]

theorem pyDecVal_pyDecChars : ∀ f n, n < 10 ^ f → pyDecVal (pyDecChars f n) = n := by
  intro f
  induction f with
  | zero =>
    intro n hn
    have : n = 0 := by simpa using hn
    simp [this, pyDecChars, pyDecVal]
  | succ f ih =>
    intro n hn
    by_cases h10 : n < 10
    · simp [pyDecChars, h10, pyDecVal, pyDigitChar_toNat h10]
    · have hdiv : n / 10 < 10 ^ f := by
        rw [Nat.div_lt_iff_lt_mul (by norm_num)]
        calc n < 10 ^ (f + 1) := hn
        _ = 10 ^ f * 10 := by rw [pow_succ]
      have hmod : n % 10 < 10 := Nat.mod_lt _ (by norm_num)
      simp only [pyDecChars, if_neg h10]
      rw [pyDecVal_append_digit, ih _ hdiv, pyDigitChar_toNat hmod]
      omega

theorem pyDecVal_pyNatStr (n : Nat) : pyDecVal (pyNatStr n).data = n := by
  apply pyDecVal_pyDecChars
  calc n < 10 ^ n := Nat.lt_pow_self (by norm_num) n
  _ ≤ 10 ^ (n + 1) := Nat.pow_le_pow_right (by norm_num) (Nat.le_succ n)

theorem pyNatStr_inj : Function.Injective pyNatStr := by
  intro a b h
  have hd : (pyNatStr a).data = (pyNatStr b).data := by rw [h]
  have := pyDecVal_pyNatStr a
  rw [hd, pyDecVal_pyNatStr b] at this
  omega

theorem pyDecChars_digits : ∀ f n, ∀ c ∈ pyDecChars f n, ∃ d, d < 10 ∧ c = pyDigitChar d := by
  intro f
  induction f with
  | zero => intro n c hc; simp [pyDecChars] at hc
  | succ f ih =>
    intro n c hc
    by_cases h10 : n < 10
    · simp [pyDecChars, h10] at hc
      exact ⟨n, h10, hc⟩
    · simp only [pyDecChars, if_neg h10, List.mem_append, List.mem_singleton] at hc
      rcases hc with hc | hc
      · exact ih _ _ hc
      · exact ⟨n % 10, Nat.mod_lt _ (by norm_num), hc⟩

theorem pyDigitChar_ne_p {d : Nat} (h : d < 10) : pyDigitChar d ≠ 'p' := by
  interval_cases d <;> decide

theorem removeAllP_label (n : Nat) : removeAllP (pyNatStr n ++ "p") = pyNatStr n := by
  have hdata : (pyNatStr n ++ "p").data = (pyNatStr n).data ++ ['p'] := by
    simp [String.data_append]
  simp only [removeAllP, hdata, List.filter_append]
  have h1 : (pyNatStr n).data.filter (fun c => c != 'p') = (pyNatStr n).data := by
    apply List.filter_eq_self.mpr
    intro c hc
    rcases pyDecChars_digits _ _ c hc with ⟨d, hd, rfl⟩
    simpa using pyDigitChar_ne_p hd
  have h2 : (['p'] : List Char).filter (fun c => c != 'p') = [] := by decide
  rw [h1, h2, List.append_nil]

theorem label_ne_empty (n : Nat) : pyNatStr n ++ "p" ≠ "" := by
  intro h
  have : (pyNatStr n ++ "p").data = ([] : List Char) := by rw [h]
  simp [String.data_append] at this

end App
namespace App

theorem pairwise_and_of {α : Type} {R S : α → α → Prop} {l : List α}
    (h1 : l.Pairwise R) (h2 : l.Pairwise S) : l.Pairwise (fun a b => R a b ∧ S a b) := by
  induction l with
  | nil => simp
  | cons a t ih =>
    rw [List.pairwise_cons] at h1 h2 ⊢
    exact ⟨fun b hb => ⟨h1.1 b hb, h2.1 b hb⟩, ih h1.2 h2.2⟩

theorem sortedHeights_nodup (formats : List StreamFmt) : (sortedHeights formats).Nodup :=
  (List.perm_insertionSort _ _).nodup_iff.mpr (List.nodup_dedup _)

theorem sortedHeights_strict_desc (formats : List StreamFmt) :
    (sortedHeights formats).Pairwise (· > ·) := by
  have hs : (sortedHeights formats).Pairwise (· ≥ ·) :=
    List.sorted_insertionSort (· ≥ ·) _
  have hn : (sortedHeights formats).Pairwise (· ≠ ·) := sortedHeights_nodup formats
  exact (pairwise_and_of hs hn).imp (fun h => lt_of_le_of_ne h.1 (Ne.symm h.2))

theorem mem_sortedHeights (formats : List StreamFmt) (h : Nat) :
    h ∈ sortedHeights formats ↔ ∃ f ∈ formats, videoHeightOf f = some h := by
  rw [sortedHeights, (List.perm_insertionSort _ _).mem_iff, List.mem_dedup, List.mem_filterMap]

theorem label_inj : Function.Injective (fun h : Nat => pyNatStr h ++ "p") := by
  intro a b hab
  have hd : (pyNatStr a).data ++ ['p'] = (pyNatStr b).data ++ ['p'] := by
    have := congrArg String.data hab
    simpa [String.data_append] using this
  have hd2 : (pyNatStr a).data = (pyNatStr b).data := by
    exact List.append_cancel_right hd
  have h1 := pyDecVal_pyNatStr a
  rw [hd2, pyDecVal_pyNatStr b] at h1
  omega

end App
namespace App

/-- C1: available_resolutions returns duplicate-free labels, strictly
descending by numeric height, formatted as the height followed by p, built
from the distinct heights of descriptors with a video codec and a height;
on the example descriptors with heights 720, 480, 720, None, 360 plus an
audio-only descriptor the result is exactly the three labels 720p, 480p,
360p, and on an empty input or an input with no video descriptors the
result is empty. -/
theorem claim_available_resolutions :
    (∀ formats : List StreamFmt,
        (get_available_resolutions formats).Nodup
        ∧ (sortedHeights formats).Pairwise (· > ·)
        ∧ get_available_resolutions formats
            = (sortedHeights formats).map (fun h => pyNatStr h ++ "p")
        ∧ (∀ h, h ∈ sortedHeights formats ↔ ∃ f ∈ formats, videoHeightOf f = some h))
    ∧ get_available_resolutions exampleFormats = ["720p", "480p", "360p"]
    ∧ get_available_resolutions [] = []
    ∧ (∀ formats : List StreamFmt, (∀ f ∈ formats, videoHeightOf f = none) →
        get_available_resolutions formats = []) := by
  refine ⟨fun formats => ⟨?_, sortedHeights_strict_desc formats, rfl, mem_sortedHeights formats⟩,
    by decide, rfl, fun formats hnone => ?_⟩
  · exact (sortedHeights_nodup formats).map label_inj
  · have hfm : formats.filterMap videoHeightOf = [] := by
      rw [List.filterMap_eq_nil_iff]
      exact hnone
    simp [get_available_resolutions, sortedHeights, hfm]

/-- Witness for C1: a list with only an audio descriptor has no video
descriptor, and its resolution list is empty. -/
theorem claim_available_resolutions_witness :
    get_available_resolutions [⟨some "none", some 1080⟩] = [] :=
  claim_available_resolutions.2.2.2 [⟨some "none", some 1080⟩] (by decide)

/-- C10: a descriptor with height 0 contributes nothing even with a video
codec, and a descriptor with no codec-kind field is treated as non-video,
so neither changes the output. -/
theorem claim_resolutions_ignore_zero_height_and_missing_codec :
    ∀ (pre post : List StreamFmt) (v : Option String) (hh : Option Nat),
      videoHeightOf ⟨v, some 0⟩ = none
      ∧ videoHeightOf ⟨none, hh⟩ = none
      ∧ get_available_resolutions (pre ++ ⟨v, some 0⟩ :: post)
          = get_available_resolutions (pre ++ post)
      ∧ get_available_resolutions (pre ++ ⟨none, hh⟩ :: post)
          = get_available_resolutions (pre ++ post) := by
  intro pre post v hh
  have h0 : videoHeightOf ⟨v, some 0⟩ = none := by
    unfold videoHeightOf
    split <;> simp
  have hm : videoHeightOf ⟨none, hh⟩ = none := by
    simp [videoHeightOf]
  refine ⟨h0, hm, ?_, ?_⟩ <;>
    simp [get_available_resolutions, sortedHeights, List.filterMap_append,
      List.filterMap_cons, h0, hm]

end App
namespace App

/-- C3: for a video request whose resolution label is a decimal height
followed by p, the engine options carry the format-selection expression
capping both alternatives at that height, with mp4 as merge container;
an absent label gives the default height 720, and the label 480p caps the
expression at 480. -/
theorem claim_video_download_options :
    (∀ h : Nat,
      (download_ydl_opts "video" (some (pyNatStr h ++ "p"))).format
          = "bestvideo[height<=" ++ pyNatStr h ++ "]+bestaudio/best[height<=" ++ pyNatStr h ++ "]"
      ∧ (download_ydl_opts "video" (some (pyNatStr h ++ "p"))).merge_output_format = some "mp4")
    ∧ (download_ydl_opts "video" none).format
        = "bestvideo[height<=720]+bestaudio/best[height<=720]"
    ∧ (download_ydl_opts "video" none).merge_output_format = some "mp4"
    ∧ (download_ydl_opts "video" (some "480p")).format
        = "bestvideo[height<=480]+bestaudio/best[height<=480]" := by
  refine ⟨fun h => ⟨?_, ?_⟩, by decide, by decide, by decide⟩ <;>
    simp [download_ydl_opts, pyHeightStr, if_neg (label_ne_empty h), removeAllP_label]

/-- C8: an audio request configures the best-audio format expression with an
mp3 extraction post-processor at quality 192, and a single output file in the
directory is returned as the download result. -/
theorem claim_audio_download_options :
    ∀ resolution : Option String,
      (download_ydl_opts "audio" resolution).format = "bestaudio/best"
      ∧ (download_ydl_opts "audio" resolution).postprocessors
          = [⟨"FFmpegExtractAudio", "mp3", "192"⟩]
      ∧ (download_ydl_opts "audio" resolution).merge_output_format = none
      ∧ resolve_output ["song.mp3"] = Except.ok "song.mp3"
      ∧ (∀ f : String, resolve_output [f] = Except.ok f) := by
  intro resolution
  refine ⟨?_, ?_, ?_, rfl, fun f => rfl⟩ <;> simp [download_ydl_opts]

/-- C5: after an engine call that returns without error, a single file in
the directory is returned as the result, an empty directory yields the
missing-output failure message, and several files yield the first listing
entry. -/
theorem claim_output_file_resolution :
    (∀ f : String, resolve_output [f] = Except.ok f)
    ∧ resolve_output [] = Except.error "❌ Download succeeded but no output file was found."
    ∧ (∀ (f g : String) (rest : List String), resolve_output (f :: g :: rest) = Except.ok f) :=
  ⟨fun _ => rfl, rfl, fun _ _ _ => rfl⟩

/-- C4 counterexample: on a downloading event with a known total of 100
bytes and 200 downloaded bytes, the hook reports the capped fraction 1,
which differs from downloaded divided by total. -/
theorem claim_progress_fraction_counterexample :
    progress_hook ⟨"downloading", some 100, none, some 200⟩
      = HookAction.barUpdate 1 "Downloading…"
    ∧ ((200 : ℚ) / 100 ≠ 1) := by
  constructor
  · simp only [progress_hook, eventTotal, eventDownloaded]
    norm_num
  · norm_num

/-- C4 as amended: on a downloading event with positive computed total the
hook reports the fraction downloaded divided by total capped at 1; with
total 0 (unknown size) it reports the indeterminate status text; on a
finished event it reports fraction 1 with the processing caption. -/
theorem claim_progress_reporting :
    ∀ ev : ProgressEvent,
      (ev.status = "downloading" → 0 < eventTotal ev →
        progress_hook ev
          = HookAction.barUpdate
              (min ((eventDownloaded ev : ℚ) / (eventTotal ev : ℚ)) 1) "Downloading…")
      ∧ (ev.status = "downloading" → eventTotal ev = 0 →
        progress_hook ev = HookAction.statusUpdate "Downloading… (size unknown)")
      ∧ (ev.status = "finished" →
        progress_hook ev = HookAction.barUpdate 1 "Download complete — processing…") := by
  intro ev
  refine ⟨fun h1 h2 => ?_, fun h1 h2 => ?_, fun h1 => ?_⟩
  · simp [progress_hook, h1, h2]
  · simp [progress_hook, h1, h2]
  · simp [progress_hook, h1]

/-- Witness for C4: the finished event reports fraction 1 with the
processing caption. -/
theorem claim_progress_reporting_witness :
    progress_hook ⟨"finished", none, none, none⟩
      = HookAction.barUpdate 1 "Download complete — processing…" :=
  (claim_progress_reporting ⟨"finished", none, none, none⟩).2.2 rfl

end App
namespace App

theorem cleanup_temp_dirs (s : SessionState) (h : s.existingDirs = dirsOf s.tmp_dir) :
    (cleanup_temp s).existingDirs = [] := by
  rcases htd : s.tmp_dir with _ | d
  · rw [htd] at h
    simp [cleanup_temp, htd, h, dirsOf]
  · rw [htd] at h
    simp [cleanup_temp, htd, h, dirsOf]

theorem step_preserves_dirs_inv {s t : SessionState} (hst : SessionStep s t)
    (ih : s.existingDirs = dirsOf s.tmp_dir) : t.existingDirs = dirsOf t.tmp_dir := by
  cases hst with
  | urlChange =>
    show (cleanup_temp s).existingDirs = dirsOf none
    rw [cleanup_temp_dirs s ih]
    rfl
  | startDownload d hf =>
    show d :: (cleanup_temp s).existingDirs = dirsOf (some d)
    rw [cleanup_temp_dirs s ih]
    rfl
  | finishOk f hdl => exact ih
  | finishFail hdl => exact ih

theorem session_dirs_inv (s : SessionState) (h : SessionReachable s) :
    s.existingDirs = dirsOf s.tmp_dir := by
  induction h with
  | init => rfl
  | step hr hst ih => exact step_preserves_dirs_inv hst ih

/-- C6: in every reachable session state the filesystem holds at most one
temp directory — exactly the one recorded in the session — and every
transition into the downloading state leaves only the freshly created
directory on disk. -/
theorem claim_single_temp_directory :
    ∀ s : SessionState, SessionReachable s →
      s.existingDirs.length ≤ 1
      ∧ s.existingDirs = dirsOf s.tmp_dir
      ∧ (∀ t : SessionState, SessionStep s t → t.status = DlStatus.downloading →
          t.existingDirs = dirsOf t.tmp_dir ∧ t.existingDirs.length ≤ 1) := by
  intro s hs
  have hinv := session_dirs_inv s hs
  have hlen : ∀ u : SessionState, u.existingDirs = dirsOf u.tmp_dir →
      u.existingDirs.length ≤ 1 := by
    intro u hu
    rw [hu]
    rcases u.tmp_dir with _ | d <;> simp [dirsOf]
  refine ⟨hlen s hinv, hinv, fun t hst _ => ?_⟩
  have hinvt := session_dirs_inv t (SessionReachable.step hs hst)
  exact ⟨hinvt, hlen t hinvt⟩

/-- Witness for C6: the initial session is reachable and holds no temp
directory. -/
theorem claim_single_temp_directory_witness :
    initSession.existingDirs.length ≤ 1 :=
  (claim_single_temp_directory initSession SessionReachable.init).1

theorem get_video_info_err (engine : String → EngineOutcome) (url msg : String)
    (heng : engine url = EngineOutcome.err msg) :
    get_video_info engine url = FetchResult.failure ("❌ Could not fetch video info: " ++ msg) := by
  simp [get_video_info, heng]

/-- C7 counterexample: with an engine that always fails, the first call
stores the failure in the cache, and a second call one second later for the
same URL performs no engine invocation and returns the cached failure —
contradicting the claim that a failure is not cached and that the next call
invokes the engine again. -/
theorem claim_metadata_failure_cached_counterexample :
    (cached_get_video_info failEngine [] "u" 0).1
        = FetchResult.failure "❌ Could not fetch video info: Video unavailable"
    ∧ (cached_get_video_info failEngine
        ((cached_get_video_info failEngine [] "u" 0).2.1) "u" 1).2.2 = 0
    ∧ (cached_get_video_info failEngine
        ((cached_get_video_info failEngine [] "u" 0).2.1) "u" 1).1
        = FetchResult.failure "❌ Could not fetch video info: Video unavailable" := by
  refine ⟨rfl, rfl, rfl⟩

/-- C7 as amended: on engine failure, get_video_info returns a failure
carrying a human-readable message, and the caching decorator stores that
failure result like any other return value, so a second call for the same
URL within the time-to-live performs no engine invocation and returns the
cached failure. -/
theorem claim_metadata_failure_behavior :
    ∀ (engine : String → EngineOutcome) (url msg : String) (t u : Nat),
      engine url = EngineOutcome.err msg → u - t ≤ 600 →
      (cached_get_video_info engine [] url t).1
          = FetchResult.failure ("❌ Could not fetch video info: " ++ msg)
      ∧ (cached_get_video_info engine [] url t).2.2 = 1
      ∧ (cached_get_video_info engine
          ((cached_get_video_info engine [] url t).2.1) url u).2.2 = 0
      ∧ (cached_get_video_info engine
          ((cached_get_video_info engine [] url t).2.1) url u).1
          = FetchResult.failure ("❌ Could not fetch video info: " ++ msg) := by
  intro engine url msg t u heng httl
  have h1 := get_video_info_err engine url msg heng
  have hlookup0 : cacheLookup [] url t = none := rfl
  have hfirst : cached_get_video_info engine [] url t
      = (FetchResult.failure ("❌ Could not fetch video info: " ++ msg),
         [(url, t, FetchResult.failure ("❌ Could not fetch video info: " ++ msg))], 1) := by
    simp [cached_get_video_info, hlookup0, h1]
  have hlookup1 :
      cacheLookup [(url, t, FetchResult.failure ("❌ Could not fetch video info: " ++ msg))] url u
        = some (FetchResult.failure ("❌ Could not fetch video info: " ++ msg)) := by
    simp [cacheLookup, List.find?, httl]
  rw [hfirst]
  refine ⟨rfl, rfl, ?_, ?_⟩ <;> simp [cached_get_video_info, hlookup1]

/-- Witness for C7: the concrete failing engine exercises the amended claim
at the time pair 0 and 5. -/
theorem claim_metadata_failure_behavior_witness :
    (cached_get_video_info failEngine
        ((cached_get_video_info failEngine [] "u" 0).2.1) "u" 5).2.2 = 0 :=
  (claim_metadata_failure_behavior failEngine "u" "Video unavailable" 0 5 rfl (by decide)).2.2.1

end App
namespace App

theorem dropToken_eq_some : ∀ {p l r : List Char}, dropToken p l = some r → l = p ++ r := by
  intro p
  induction p with
  | nil =>
    intro l r h
    simp only [dropToken, Option.some.injEq] at h
    rw [h]
    rfl
  | cons c ps ih =>
    intro l r h
    cases l with
    | nil => exact absurd h (by simp [dropToken])
    | cons d ds =>
      simp only [dropToken] at h
      split at h
      · next heq =>
        rw [heq, ih h]
        rfl
      · exact absurd h (by simp)

theorem schemeRest_decomp (l : List Char) :
    ∃ scheme : List Char,
      (scheme = [] ∨ scheme = "http://".data ∨ scheme = "https://".data)
      ∧ l = scheme ++ schemeRest l := by
  cases h1 : dropToken "https://".data l with
  | some r =>
    refine ⟨"https://".data, by simp, ?_⟩
    rw [show schemeRest l = r from by simp [schemeRest, h1]]
    exact dropToken_eq_some h1
  | none =>
    cases h2 : dropToken "http://".data l with
    | some r =>
      refine ⟨"http://".data, by simp, ?_⟩
      rw [show schemeRest l = r from by simp [schemeRest, h1, h2]]
      exact dropToken_eq_some h2
    | none =>
      refine ⟨[], by simp, ?_⟩
      rw [show schemeRest l = l from by simp [schemeRest, h1, h2]]
      rfl

theorem wwwRest_decomp (l : List Char) :
    ∃ www : List Char, (www = [] ∨ www = "www.".data) ∧ l = www ++ wwwRest l := by
  cases h1 : dropToken "www.".data l with
  | some r =>
    refine ⟨"www.".data, by simp, ?_⟩
    rw [show wwwRest l = r from by simp [wwwRest, h1]]
    exact dropToken_eq_some h1
  | none =>
    refine ⟨[], by simp, ?_⟩
    rw [show wwwRest l = l from by simp [wwwRest, h1]]
    rfl

theorem hostRest_decomp {l r : List Char} (h : hostRest l = some r) :
    ∃ hostPath : List Char,
      (hostPath = "youtube.com/watch?v=".data ∨ hostPath = "youtu.be/".data ∨
        hostPath = "youtube.com/shorts/".data)
      ∧ l = hostPath ++ r := by
  revert h
  unfold hostRest
  cases h1 : dropToken "youtube.com/watch?v=".data l with
  | some r1 =>
    intro h
    obtain rfl : r1 = r := by simpa using h
    exact ⟨_, Or.inl rfl, dropToken_eq_some h1⟩
  | none =>
    cases h2 : dropToken "youtu.be/".data l with
    | some r2 =>
      intro h
      obtain rfl : r2 = r := by simpa using h
      exact ⟨_, Or.inr (Or.inl rfl), dropToken_eq_some h2⟩
    | none =>
      intro h
      exact ⟨_, Or.inr (Or.inr rfl), dropToken_eq_some h⟩

theorem ytAccepts_shape {l : List Char} (h : ytAccepts l = true) : CanonicalShape l := by
  unfold ytAccepts at h
  cases hh : hostRest (wwwRest (schemeRest l)) with
  | none => rw [hh] at h; exact absurd h (by simp)
  | some r =>
    rw [hh] at h
    simp only [Bool.and_eq_true, decide_eq_true_eq, List.all_eq_true] at h
    obtain ⟨hlen, hall⟩ := h
    obtain ⟨scheme, hs, hls⟩ := schemeRest_decomp l
    obtain ⟨www, hw, hlw⟩ := wwwRest_decomp (schemeRest l)
    obtain ⟨hostPath, hhp, hlh⟩ := hostRest_decomp hh
    refine ⟨scheme, www, hostPath, r.take 11, r.drop 11, hs, hw, hhp, ?_, ?_, ?_⟩
    · rw [List.length_take]
      omega
    · intro c hc
      exact hall c hc
    · rw [hls, hlw, hlh, ← List.take_append_drop 11 r]
      simp [List.append_assoc]

end App
namespace App

theorem shape_min_length {l : List Char} (h : CanonicalShape l) : 11 ≤ l.length := by
  obtain ⟨s, w, hp, idPart, rest, hs, hw, hhp, hlen, hmem, heq⟩ := h
  subst heq
  simp only [List.length_append]
  omega

/-- C2: every string whose stripped form does not match the canonical
video-link shape is rejected; the empty string and malformed hosts are
rejected, and one example of each accepted shape — watch link, short link,
shorts link — with an eleven-character identifier is accepted. -/
theorem claim_url_validation :
    (∀ u : String, ¬ CanonicalShape (stripChars u.data) → is_valid_youtube_url u = false)
    ∧ is_valid_youtube_url "" = false
    ∧ is_valid_youtube_url "not a url" = false
    ∧ is_valid_youtube_url "https://example.com/watch?v=dQw4w9WgXcQ" = false
    ∧ is_valid_youtube_url "https://www.youtube.com/watch?v=dQw4w9WgXcQ" = true
    ∧ is_valid_youtube_url "https://youtu.be/dQw4w9WgXcQ" = true
    ∧ is_valid_youtube_url "https://www.youtube.com/shorts/abc123XYZ_-" = true := by
  refine ⟨fun u hn => ?_, by decide, by decide, by decide, by decide, by decide, by decide⟩
  cases hv : is_valid_youtube_url u with
  | false => rfl
  | true => exact absurd (ytAccepts_shape hv) hn

/-- Witness for C2: the bare word youtube is too short to carry the shape
and is rejected. -/
theorem claim_url_validation_witness : is_valid_youtube_url "youtube" = false :=
  claim_url_validation.1 "youtube"
    (fun hsh => absurd (shape_min_length hsh) (by decide))

theorem dropWhile_append_all {p : Char → Bool} {pre : List Char} (l : List Char)
    (h : ∀ c ∈ pre, p c) : (pre ++ l).dropWhile p = l.dropWhile p := by
  induction pre with
  | nil => rfl
  | cons c cs ih =>
    rw [List.cons_append, List.dropWhile_cons, if_pos (h c (List.mem_cons_self c cs))]
    exact ih (fun d hd => h d (List.mem_cons_of_mem c hd))

theorem dropWhile_append_split {p : Char → Bool} :
    ∀ l t : List Char, (l ++ t).dropWhile p
      = if l.dropWhile p = [] then t.dropWhile p else l.dropWhile p ++ t := by
  intro l t
  induction l with
  | nil => simp
  | cons c cs ih =>
    by_cases hc : p c
    · rw [List.cons_append, List.dropWhile_cons, if_pos hc, ih, List.dropWhile_cons, if_pos hc]
    · rw [List.cons_append, List.dropWhile_cons, if_neg hc, List.dropWhile_cons, if_neg hc]
      rw [if_neg (by simp)]
      rfl

theorem stripChars_pad {pre post : List Char} (l : List Char)
    (hpre : ∀ c ∈ pre, isPySpace c) (hpost : ∀ c ∈ post, isPySpace c) :
    stripChars (pre ++ l ++ post) = stripChars l := by
  unfold stripChars
  rw [List.append_assoc, dropWhile_append_all _ hpre, dropWhile_append_split]
  by_cases h0 : l.dropWhile isPySpace = []
  · rw [if_pos h0, h0, List.dropWhile_eq_nil_iff.mpr hpost]
  · rw [if_neg h0, List.reverse_append,
      dropWhile_append_all _ (fun c hc => hpost c (List.mem_reverse.mp hc))]

theorem strip_decomp (l : List Char) :
    ∃ pre post : List Char, (∀ c ∈ pre, isPySpace c) ∧ (∀ c ∈ post, isPySpace c) ∧
      l = pre ++ stripChars l ++ post := by
  refine ⟨l.takeWhile isPySpace,
    ((l.dropWhile isPySpace).reverse.takeWhile isPySpace).reverse,
    fun c hc => List.mem_takeWhile_imp hc,
    fun c hc => List.mem_takeWhile_imp (List.mem_reverse.mp hc), ?_⟩
  conv_lhs => rw [← List.takeWhile_append_dropWhile (p := isPySpace) (l := l)]
  rw [List.append_assoc]
  congr 1
  conv_lhs => rw [← List.reverse_reverse (l.dropWhile isPySpace),
    ← List.takeWhile_append_dropWhile (p := isPySpace)
      (l := (l.dropWhile isPySpace).reverse)]
  rw [List.reverse_append]
  rfl

/-- C9: the validator is invariant under surrounding whitespace — it agrees
with itself on the stripped string, and padding any string with whitespace
on either side does not change the verdict. -/
theorem claim_url_validation_strip_invariance :
    ∀ u : String,
      is_valid_youtube_url u = is_valid_youtube_url (String.mk (stripChars u.data))
      ∧ (∀ pre post : List Char,
          (∀ c ∈ pre, isPySpace c) → (∀ c ∈ post, isPySpace c) →
          is_valid_youtube_url (String.mk (pre ++ u.data ++ post)) = is_valid_youtube_url u) := by
  intro u
  constructor
  · show ytAccepts (stripChars u.data) = ytAccepts (stripChars (stripChars u.data))
    obtain ⟨pre, post, h1, h2, heq⟩ := strip_decomp u.data
    conv_lhs => rw [heq]
    rw [stripChars_pad _ h1 h2]
  · intro pre post h1 h2
    show ytAccepts (stripChars (pre ++ u.data ++ post)) = ytAccepts (stripChars u.data)
    rw [stripChars_pad _ h1 h2]

/-- Witness for C9: a short link padded with a space and a newline is still
accepted. -/
theorem claim_url_validation_strip_invariance_witness :
    is_valid_youtube_url
        (String.mk ([' '] ++ "https://youtu.be/dQw4w9WgXcQ".data ++ ['\n']))
      = is_valid_youtube_url "https://youtu.be/dQw4w9WgXcQ" :=
  (claim_url_validation_strip_invariance "https://youtu.be/dQw4w9WgXcQ").2
    [' '] ['\n'] (by decide) (by decide)

end App
namespace App

/-- Witness for C3: the label 480p produces the expression capped at 480. -/
theorem claim_video_download_options_witness :
    (download_ydl_opts "video" (some (pyNatStr 480 ++ "p"))).format
      = "bestvideo[height<=" ++ pyNatStr 480 ++ "]+bestaudio/best[height<=" ++
        pyNatStr 480 ++ "]" :=
  (claim_video_download_options.1 480).1

/-- Witness for C8: an audio request with no resolution label selects the
best-audio expression. -/
theorem claim_audio_download_options_witness :
    (download_ydl_opts "audio" none).format = "bestaudio/best" :=
  (claim_audio_download_options none).1

/-- Witness for C5: a directory holding exactly one file resolves to it. -/
theorem claim_output_file_resolution_witness :
    resolve_output ["clip.mp4"] = Except.ok "clip.mp4" :=
  claim_output_file_resolution.1 "clip.mp4"

/-- Witness for C10: a zero-height video descriptor contributes nothing. -/
theorem claim_resolutions_ignore_zero_height_witness :
    get_available_resolutions ([] ++ StreamFmt.mk (some "avc1") (some 0) :: [])
      = get_available_resolutions ([] ++ []) :=
  (claim_resolutions_ignore_zero_height_and_missing_codec [] [] (some "avc1") none).2.2.1

end App
